import Mathlib

/-!
Verification development for the credence conversational-agent testing
harness.  The definitions below are a shallow embedding of the Python
sources under `src/credence/`:

* the Check library (`interaction/chatbot/check/{response,metadata,ai}.py`),
* the `ChatbotResponds.to_result` evaluation (`interaction/chatbot/__init__.py`),
* the metadata sink (`metadata.py` together with `Adapter._add_message`),
* the serialized-conversation resolution loop (`json.py`),
* the conversation execution engine (`Adapter.test`).

External capabilities (the regular-expression engine, the natural-language
evaluator, the chatbot under test) are modelled as explicit oracle
parameters; machine-level effects (wall-clock timing, the LLM transport)
are outside the model.
-/

namespace Credence

/-- Status of an interaction result or of a check result
(`InteractionResultStatus` / `BaseCheckResultStatus` in the source; the two
Python enums have identical constructors). -/
inductive Status where
  | passed
  | failed
  | skipped
deriving DecidableEq, Repr

/-- Role of a recorded message (`role.py`). -/
inductive Role where
  | user
  | chatbot
deriving DecidableEq, Repr

/-- One entry of the message log (`message.py`): a role, a body, a monotone
index, and — for chatbot messages only — the metadata snapshot captured when
the message was recorded. -/
structure Message where
  role : Role
  body : String
  index : Nat := 0
  metadata : Option (List (String × String)) := none
deriving DecidableEq, Repr

/-- Value stored inside a check: a literal string, a compiled regular
expression (represented by its pattern source), or a list of allowed values
(`one_of`).  Mirrors the dynamic `str | re.Pattern | List[str]` fields of
the Python check classes. -/
inductive CheckVal where
  | str (s : String)
  | pat (p : String)
  | many (vs : List String)
deriving DecidableEq, Repr

/-- Operation of a response (message) check (`check/response.py`,
`Operation`). -/
inductive MsgOp where
  | equals
  | notEquals
  | contains
  | notContains
  | regexMatch
deriving DecidableEq, Repr

/-- Operation of a metadata check (`check/metadata.py`, `Operation`). -/
inductive MetaOp where
  | equals
  | notEquals
  | contains
  | notContains
  | regexMatch
  | oneOf
deriving DecidableEq, Repr

/-- A check attached to a `ChatbotResponds` interaction: the three concrete
subclasses of `BaseCheck` (`ChatbotResponseAICheck`,
`ChatbotResponseMessageCheck`, `ChatbotResponseMetadataCheck`). -/
inductive Check where
  | ai (prompt : String) (retries : Nat)
  | message (value : CheckVal) (op : MsgOp)
  | metadata (key : String) (value : CheckVal) (op : MetaOp)
deriving DecidableEq, Repr

/-- Verdict returned by the external natural-language evaluator for one
invocation (`AIContentCheck`: `requirement_met` and `reason`). -/
structure AIVerdict where
  met : Bool
  reason : String
deriving DecidableEq, Repr

/-- Result of evaluating one check (merges the three Python result classes
`ChatbotResponse{Message,Metadata,AI}CheckResult`, which share the same
shape; the class of the original check is recoverable from `data`). -/
structure CheckResult where
  status : Status
  data : Check
  missing_key : Bool := false
  invalid_adapter_error : Option String := none
  generation_error : Option String := none
  unmet_requirement : Option String := none
deriving DecidableEq, Repr

/-- Substring test used for `in` on Python strings. -/
def strContains (needle hay : String) : Bool :=
  decide (needle.data <:+: hay.data)

/-- Python `str(list)` display used by `humanize` when the stored value is a
`one_of` list. -/
def pyListRepr (vs : List String) : String :=
  "[" ++ String.intercalate ", " (vs.map (fun v => "\x27" ++ v ++ "\x27")) ++ "]"

/-- Display of a check value inside `humanize` (a compiled pattern prints
its `.pattern` source). -/
def CheckVal.display : CheckVal → String
  | .str s => s
  | .pat p => p
  | .many vs => pyListRepr vs

/-- Phrase produced by `Operation.should` in `check/response.py`. -/
def MsgOp.should : MsgOp → String
  | .equals => "should equal"
  | .notEquals => "should not equal"
  | .contains => "should contain"
  | .notContains => "should not contain"
  | .regexMatch => "should match the regex"

/-- Phrase produced by `Operation.should` in `check/metadata.py`. -/
def MetaOp.should : MetaOp → String
  | .equals => "should equal"
  | .notEquals => "should not equal"
  | .contains => "should contain"
  | .notContains => "should not contain"
  | .regexMatch => "should match the regex"
  | .oneOf => "should be one of"

/-- Sentence produced by `ChatbotResponseMessageCheck.humanize`. -/
def humanizeMessageCheck (value : CheckVal) (op : MsgOp) : String :=
  op.should ++ " `" ++ value.display ++ "`"

/-- Sentence produced by `ChatbotResponseMetadataCheck.humanize`. -/
def humanizeMetadataCheck (key : String) (value : CheckVal) (op : MetaOp) : String :=
  "metadata[\"" ++ key ++ "\"] " ++ op.should ++ " `" ++ value.display ++ "`"

/-- Python equality between a stored check value and a string: a compiled
pattern or a list never equals a string. -/
def CheckVal.eqStr : CheckVal → String → Bool
  | .str t, v => t = v
  | _, _ => false

/-- Search oracle standing for `re.search` on a compiled pattern: given the
pattern source and the text, reports whether an (unanchored) match exists
anywhere in the text. -/
abbrev SearchOracle := String → String → Bool

/-- Evaluation of `ChatbotResponseMessageCheck.to_check_result`.  The
`skipped` flag short-circuits to a Skipped result before the value is
inspected.  `Contains`/`NotContains` fail outright when the stored value is
not a string; `Equals` compares with Python `!=` (a pattern never equals the
response string). -/
def msgCheckEval (search : SearchOracle) (value : CheckVal) (op : MsgOp)
    (v : String) (skipped : Bool) : CheckResult :=
  if skipped then
    { status := .skipped, data := .message value op }
  else
    let failed : CheckResult := { status := .failed, data := .message value op }
    let passed : CheckResult := { status := .passed, data := .message value op }
    match op with
    | .equals => if value.eqStr v then passed else failed
    | .notEquals => if value.eqStr v then failed else passed
    | .contains =>
      match value with
      | .str t => if strContains t v then passed else failed
      | _ => failed
    | .notContains =>
      match value with
      | .str t => if strContains t v then failed else passed
      | _ => failed
    | .regexMatch =>
      match value with
      | .pat p => if search p v then passed else failed
      | .str t => if search t v then passed else failed
      | .many _ => failed

/-- Evaluation of `ChatbotResponseMetadataCheck.to_check_result` once the
key has been resolved to a value.  `RegexMatch` with a non-pattern stored
value falls through to Passed (the `isinstance` guard in the source);
`OneOf` passes when the value is a member of the allowed list (metadata
values are strings, so the raw-membership and string-repr membership tests
of the source coincide). -/
def metaCheckEval (search : SearchOracle) (key : String) (value : CheckVal)
    (op : MetaOp) (v : String) (skipped : Bool) : CheckResult :=
  if skipped then
    { status := .skipped, data := .metadata key value op }
  else
    let failedCheck : CheckResult := { status := .failed, data := .metadata key value op }
    let passed : CheckResult := { status := .passed, data := .metadata key value op }
    match op with
    | .equals => if value.eqStr v then passed else failedCheck
    | .notEquals => if value.eqStr v then failedCheck else passed
    | .contains =>
      match value with
      | .str t => if strContains t v then passed else failedCheck
      | _ => failedCheck
    | .notContains =>
      match value with
      | .str t => if strContains t v then failedCheck else passed
      | _ => failedCheck
    | .regexMatch =>
      match value with
      | .pat p => if search p v then passed else failedCheck
      | _ => passed
    | .oneOf =>
      match value with
      | .many vs => if vs.contains v then passed else failedCheck
      | _ => failedCheck

/-- Result built by `ChatbotResponseMetadataCheck.failed_missing_key`. -/
def failedMissingKey (key : String) (value : CheckVal) (op : MetaOp) : CheckResult :=
  { status := .failed, data := .metadata key value op, missing_key := true }

/-- Recursive retry loop of `AIContentCheck.check_requirement`: invoke the
evaluator (the `attempt` counter numbers the successive independent
invocations); while the verdict is not met and retries remain, re-invoke
with `retries - 1`; otherwise return the verdict. -/
def checkRequirement (evalAt : Nat → AIVerdict) (attempt : Nat) : Nat → AIVerdict
  | 0 => evalAt attempt
  | r + 1 =>
    let result := evalAt attempt
    if result.met then result else checkRequirement evalAt (attempt + 1) r

/-- Evaluation of `ChatbotResponseAICheck.to_check_result`.  The source
invokes `AIContentCheck.check_requirement` without a `retries` argument, so
the helper runs with its default budget of 0 regardless of the check's own
`retries` field; a met verdict yields Passed with no detail, an unmet
verdict yields Failed carrying the evaluator's reason. -/
def aiCheckEval (evalAt : Nat → AIVerdict) (prompt : String) (retries : Nat)
    (skipped : Bool) : CheckResult :=
  if skipped then
    { status := .skipped, data := .ai prompt retries }
  else
    let result := checkRequirement evalAt 0 0
    if result.met then
      { status := .passed, data := .ai prompt retries }
    else
      { status := .failed, data := .ai prompt retries,
        unmet_requirement := some result.reason }

/-- Python truthiness of an optional string (`if self.unmet_requirement:`):
`None` and the empty string are falsy. -/
def optTruthy : Option String → Bool
  | none => false
  | some s => s ≠ ""

/-- Error list of a single check result
(`generate_error_messages` of the three check-result classes, dispatched on
the class of the originating check). -/
def CheckResult.generateErrorMessages (r : CheckResult) : List String :=
  match r.data with
  | .message value op =>
    if r.status = .failed then
      ["Chatbot response did not meet requirement:\n" ++ humanizeMessageCheck value op]
    else
      []
  | .metadata key value op =>
    if r.missing_key then
      ["Metadata key is missing:\n\x27" ++ key ++ "\x27"]
    else if r.status = .failed then
      ["Metadata value for " ++ key ++ " did not meet requirement:\n"
        ++ humanizeMetadataCheck key value op]
    else
      []
  | .ai _ _ =>
    if optTruthy r.invalid_adapter_error then
      ["Invalid Adapter Error:\n" ++ r.invalid_adapter_error.getD ""]
    else if optTruthy r.generation_error then
      ["Error while generating response:\n" ++ r.generation_error.getD ""]
    else if optTruthy r.unmet_requirement then
      ["Requirement not met:\n" ++ r.unmet_requirement.getD ""]
    else
      []

/-- Oracles standing for the external capabilities used while evaluating
checks: the regular-expression engine and the natural-language evaluator
(the adapter's instructor client).  The `ai` oracle returns the verdict the
evaluator gives for a requirement prompt. -/
structure Oracles where
  search : SearchOracle
  ai : String → AIVerdict

/-- Dictionary lookup `metadata_fields[key]` on the snapshot of the
metadata accumulator (the accumulator holds at most one entry per key, see
`setMetaAcc`). -/
def lookupMeta (fields : List (String × String)) (key : String) : Option String :=
  (fields.find? (fun p => p.1 = key)).map (fun p => p.2)

/-- Loop body of `ChatbotResponds.to_result`: evaluate one expectation
against the popped chatbot response and the deep-copied metadata snapshot.
For a metadata check the source wraps the dictionary lookup in
`try/except`, producing `failed_missing_key` when the key is absent.  The
message-check value is only inspected when `skipped` is false, in which
case the response is present, so the `getD` default is never compared. -/
def evalExpectation (o : Oracles) (fields : List (String × String))
    (skipped : Bool) (resp : Option String) : Check → CheckResult
  | .ai prompt retries => aiCheckEval (fun _ => o.ai prompt) prompt retries skipped
  | .message value op => msgCheckEval o.search value op (resp.getD "") skipped
  | .metadata key value op =>
    if skipped then
      { status := .skipped, data := .metadata key value op }
    else
      match lookupMeta fields key with
      | some v => metaCheckEval o.search key value op v skipped
      | none => failedMissingKey key value op

/-- Result of a `ChatbotResponds` interaction
(`ChatbotRespondsResult` in the source).  The `status` field is optional
because the source can construct the result with `status=None` (the
`missing_chatbot_message` early return). -/
structure ChatbotRespondsResult where
  status : Option Status
  metadata : List (String × String)
  checks : List CheckResult
  missing_chatbot_message : Bool := false
  chatbot_response : Option String
deriving DecidableEq, Repr

/-- Embedding of `ChatbotResponds.to_result`.  A `None` chatbot response
forces the local `skipped` flag and pre-sets the status to Failed; every
expectation is then evaluated (or short-circuited to Skipped); finally the
status is resolved in the source's branch order.  The deep copy of the
metadata accumulator is the `fields` argument and the accompanying
`metadata.clear()` side effect is performed by the caller. -/
def chatbotRespondsToResult (o : Oracles) (fields : List (String × String))
    (expectations : List Check) (skipped0 : Bool)
    (chatbot_response : Option String) : ChatbotRespondsResult :=
  let skipped := if chatbot_response.isNone then true else skipped0
  let status0 : Option Status := if chatbot_response.isNone then some .failed else none
  let checkResults := expectations.map (evalExpectation o fields skipped chatbot_response)
  match status0 with
  | some st =>
    { status := some st, metadata := fields, checks := checkResults,
      chatbot_response := chatbot_response }
  | none =>
    if skipped then
      { status := some .skipped, metadata := fields, checks := checkResults,
        chatbot_response := chatbot_response }
    else if chatbot_response.isNone then
      { status := none, metadata := fields, checks := checkResults,
        missing_chatbot_message := true, chatbot_response := chatbot_response }
    else if checkResults.any (fun c => c.status = .failed) then
      { status := some .failed, metadata := fields, checks := checkResults,
        chatbot_response := chatbot_response }
    else
      { status := some .passed, metadata := fields, checks := checkResults,
        chatbot_response := chatbot_response }

/-- Error list of a `ChatbotRespondsResult`
(`ChatbotRespondsResult.generate_error_messages`). -/
def ChatbotRespondsResult.generateErrorMessages (r : ChatbotRespondsResult) : List String :=
  if r.missing_chatbot_message then
    ["Chatbot message is missing"]
  else
    (r.checks.map CheckResult.generateErrorMessages).flatten

/-- Compilation oracle standing for `re.compile`: `none` models a pattern
rejected with `re.error`, `some p` a successfully compiled pattern
(represented by its source). -/
abbrev CompileOracle := String → Option String

/-- Outcome of `Metadata.re_match` (`check/metadata.py`).  The source
builds the check inside `try`; on a compile failure it raises an
`Exception`, immediately catches it itself, and RETURNS the caught
exception object, so construction completes normally either way.
`exceptionValue` is that returned object. -/
inductive MetadataReMatchOut where
  | check (c : Check)
  | exceptionValue (message : String)
deriving DecidableEq, Repr

/-- Embedding of `Response.re_match` (`check/response.py`): a compile
failure RAISES `re.error` (modelled by `Except.error`), so an invalid
pattern aborts construction. -/
def responseReMatch (compile : CompileOracle) (regexp : String) : Except String Check :=
  match compile regexp with
  | some p => .ok (.message (.pat p) .regexMatch)
  | none => .error ("Invalid regex: `" ++ regexp ++ "`")

/-- Embedding of `Metadata.re_match` (`check/metadata.py`): a compile
failure returns the exception object as the method's normal return value
instead of raising it. -/
def metadataReMatch (compile : CompileOracle) (field regexp : String) : MetadataReMatchOut :=
  match compile regexp with
  | some p => .check (.metadata field (.pat p) .regexMatch)
  | none => .exceptionValue ("Invalid regex: `" ++ regexp ++ "`")

/-- Evaluator model for the C3 analysis: the first invocation reports the
requirement not met with reason "nope", every later one reports it met. -/
def flakyEvaluator : Nat → AIVerdict :=
  fun n => if n = 0 then ⟨false, "nope"⟩ else ⟨true, "ok"⟩

/-- Claim C3: the claim says an AI check with retry budget `r` re-invokes
the evaluator with budget `r - 1` when the verdict is not met, passing if
any invocation reports the requirement met.  The code drops the budget:
`ChatbotResponseAICheck.to_check_result` calls
`AIContentCheck.check_requirement` without a `retries` argument, so the
evaluator is consulted exactly once regardless of the check's `retries`
field.  Against an evaluator whose first verdict is not met and whose
second is met, a check with `retries = 1` Fails carrying the first reason
(for every budget `r` the status and detail are the same as with budget 0),
although `check_requirement` itself, when actually given budget 1, returns
a met verdict. -/
theorem ai_check_retry_budget_dropped :
    (aiCheckEval flakyEvaluator "req" 1 false).status = .failed ∧
    (aiCheckEval flakyEvaluator "req" 1 false).unmet_requirement = some "nope" ∧
    (∀ r : Nat, (aiCheckEval flakyEvaluator "req" r false).status = .failed ∧
      (aiCheckEval flakyEvaluator "req" r false).unmet_requirement = some "nope") ∧
    (checkRequirement flakyEvaluator 0 1).met = true ∧
    (checkRequirement flakyEvaluator 0 0).met = false := by
  refine ⟨rfl, rfl, fun r => ⟨rfl, rfl⟩, rfl, rfl⟩

/-- Compile model for the C5 analysis: the pattern used by the repository's
own test (`test_credence.py::test_checks`) is invalid, everything else
compiles. -/
def c5Compile : CompileOracle :=
  fun s => if s = "^abc_$as[" then none else some s

/-- Claim C5: the claim (and the repository's own
`pytest.raises` test) says constructing a regex check from an invalid
pattern raises at construction time.  `Response.re_match` does raise, but
`Metadata.re_match` catches its own raise and returns the exception object
as a normal value, so construction of the metadata regex check never
raises. -/
theorem metadata_re_match_returns_instead_of_raising :
    metadataReMatch c5Compile "key" "^abc_$as[" =
      .exceptionValue "Invalid regex: `^abc_$as[`" ∧
    responseReMatch c5Compile "^abc_$as[" =
      .error "Invalid regex: `^abc_$as[`" ∧
    (∀ p : String, c5Compile p = none → ∀ f : String,
      metadataReMatch c5Compile f p =
        .exceptionValue ("Invalid regex: `" ++ p ++ "`")) := by
  refine ⟨by simp [metadataReMatch, c5Compile], by simp [responseReMatch, c5Compile], ?_⟩
  intro p hp f
  simp [metadataReMatch, hp]

/-- Witness for C5: the universally quantified part applied at the
concrete invalid pattern. -/
theorem metadata_re_match_returns_instead_of_raising_witness :
    metadataReMatch c5Compile "f" "^abc_$as[" =
      .exceptionValue "Invalid regex: `^abc_$as[`" :=
  metadata_re_match_returns_instead_of_raising.2.2 "^abc_$as["
    (by simp [c5Compile]) "f"

theorem metaCheckEval_missing_key_false (s : SearchOracle) (key : String)
    (value : CheckVal) (op : MetaOp) (v : String) (sk : Bool) :
    (metaCheckEval s key value op v sk).missing_key = false := by
  unfold metaCheckEval
  split
  · rfl
  · cases op <;> cases value <;> simp <;> split <;> rfl

theorem metaCheckEval_data (s : SearchOracle) (key : String)
    (value : CheckVal) (op : MetaOp) (v : String) (sk : Bool) :
    (metaCheckEval s key value op v sk).data = .metadata key value op := by
  unfold metaCheckEval
  split
  · rfl
  · cases op <;> cases value <;> simp <;> split <;> rfl

theorem missingMsg_ne_mismatchMsg (key h2 : String) :
    ("Metadata key is missing:\n\x27" ++ key ++ "\x27" : String) ≠
      "Metadata value for " ++ key ++ " did not meet requirement:\n" ++ h2 := by
  intro heq
  have hd := congrArg String.data heq
  simp only [String.data_append] at hd
  have h10 := congrArg (fun l => l.take 10) hd
  simp only [List.append_assoc] at h10
  rw [List.take_append_of_le_length (by decide),
    List.take_append_of_le_length (by decide)] at h10
  exact absurd h10 (by decide)

/-- Claim C4: a metadata check evaluated against a snapshot lacking its key
produces a Failed result with the `missing_key` flag and the
"Metadata key is missing" message, while a present key whose value fails
the criterion produces a Failed result without the flag and with a
different message, so the two failure reasons are reported distinctly. -/
theorem metadata_missing_key_distinct_failure
    (o : Oracles) (fields fieldsPresent : List (String × String))
    (resp resp2 : Option String) (key : String) (value : CheckVal)
    (op : MetaOp) (v : String)
    (hmiss : lookupMeta fields key = none)
    (hpres : lookupMeta fieldsPresent key = some v)
    (hfail : (metaCheckEval o.search key value op v false).status = .failed) :
    (evalExpectation o fields false resp (.metadata key value op)).status = .failed ∧
    (evalExpectation o fields false resp (.metadata key value op)).missing_key = true ∧
    (evalExpectation o fields false resp (.metadata key value op)).generateErrorMessages
      = ["Metadata key is missing:\n\x27" ++ key ++ "\x27"] ∧
    (evalExpectation o fieldsPresent false resp2 (.metadata key value op)).status = .failed ∧
    (evalExpectation o fieldsPresent false resp2 (.metadata key value op)).missing_key = false ∧
    (evalExpectation o fieldsPresent false resp2 (.metadata key value op)).generateErrorMessages
      = ["Metadata value for " ++ key ++ " did not meet requirement:\n"
          ++ humanizeMetadataCheck key value op] ∧
    (evalExpectation o fields false resp (.metadata key value op)).generateErrorMessages
      ≠ (evalExpectation o fieldsPresent false resp2 (.metadata key value op)).generateErrorMessages := by
  have emiss : evalExpectation o fields false resp (.metadata key value op)
      = failedMissingKey key value op := by
    simp [evalExpectation, hmiss]
  have epres : evalExpectation o fieldsPresent false resp2 (.metadata key value op)
      = metaCheckEval o.search key value op v false := by
    simp [evalExpectation, hpres]
  have gmiss : (failedMissingKey key value op).generateErrorMessages
      = ["Metadata key is missing:\n\x27" ++ key ++ "\x27"] := by
    simp [failedMissingKey, CheckResult.generateErrorMessages]
  have gpres : (metaCheckEval o.search key value op v false).generateErrorMessages
      = ["Metadata value for " ++ key ++ " did not meet requirement:\n"
          ++ humanizeMetadataCheck key value op] := by
    unfold CheckResult.generateErrorMessages
    rw [metaCheckEval_data]
    simp [metaCheckEval_missing_key_false, hfail]
  refine ⟨by rw [emiss]; rfl, by rw [emiss]; rfl, by rw [emiss, gmiss],
    by rw [epres]; exact hfail, by rw [epres]; exact metaCheckEval_missing_key_false ..,
    by rw [epres, gpres], ?_⟩
  rw [emiss, gmiss, epres, gpres]
  simp only [ne_eq, List.cons.injEq, and_true]
  exact missingMsg_ne_mismatchMsg key _

/-- Witness for C4: scenario D of the spec — `Metadata("chatbot.handler")
.equals("math")` against a snapshot lacking the key, and against a snapshot
holding "greeting". -/
theorem metadata_missing_key_distinct_failure_witness :
    (evalExpectation ⟨fun _ _ => false, fun _ => ⟨true, ""⟩⟩ [] false none
      (.metadata "chatbot.handler" (.str "math") .equals)).status = .failed ∧
    (evalExpectation ⟨fun _ _ => false, fun _ => ⟨true, ""⟩⟩ [] false none
      (.metadata "chatbot.handler" (.str "math") .equals)).missing_key = true ∧
    (evalExpectation ⟨fun _ _ => false, fun _ => ⟨true, ""⟩⟩ [] false none
      (.metadata "chatbot.handler" (.str "math") .equals)).generateErrorMessages
      = ["Metadata key is missing:\n\x27chatbot.handler\x27"] ∧
    (evalExpectation ⟨fun _ _ => false, fun _ => ⟨true, ""⟩⟩
      [("chatbot.handler", "greeting")] false none
      (.metadata "chatbot.handler" (.str "math") .equals)).status = .failed ∧
    (evalExpectation ⟨fun _ _ => false, fun _ => ⟨true, ""⟩⟩
      [("chatbot.handler", "greeting")] false none
      (.metadata "chatbot.handler" (.str "math") .equals)).missing_key = false ∧
    (evalExpectation ⟨fun _ _ => false, fun _ => ⟨true, ""⟩⟩
      [("chatbot.handler", "greeting")] false none
      (.metadata "chatbot.handler" (.str "math") .equals)).generateErrorMessages
      = ["Metadata value for chatbot.handler did not meet requirement:\n"
          ++ humanizeMetadataCheck "chatbot.handler" (.str "math") .equals] ∧
    (evalExpectation ⟨fun _ _ => false, fun _ => ⟨true, ""⟩⟩ [] false none
      (.metadata "chatbot.handler" (.str "math") .equals)).generateErrorMessages
      ≠ (evalExpectation ⟨fun _ _ => false, fun _ => ⟨true, ""⟩⟩
          [("chatbot.handler", "greeting")] false none
          (.metadata "chatbot.handler" (.str "math") .equals)).generateErrorMessages := by
  have h := metadata_missing_key_distinct_failure
    ⟨fun _ _ => false, fun _ => ⟨true, ""⟩⟩ [] [("chatbot.handler", "greeting")]
    none none "chatbot.handler" (.str "math") .equals "greeting"
    (by decide) (by decide) (by decide)
  exact h

theorem evalExpectation_skipped_status (o : Oracles)
    (fields : List (String × String)) (resp : Option String) (c : Check) :
    (evalExpectation o fields true resp c).status = .skipped := by
  cases c <;> simp [evalExpectation, aiCheckEval, msgCheckEval]

theorem evalExpectation_skipped_errors (o : Oracles)
    (fields : List (String × String)) (resp : Option String) (c : Check) :
    (evalExpectation o fields true resp c).generateErrorMessages = [] := by
  cases c <;>
    simp [evalExpectation, aiCheckEval, msgCheckEval,
      CheckResult.generateErrorMessages, optTruthy]

/-- Claim C10: invoking `ChatbotResponds.to_result` with no chatbot
response yields a Failed interaction result whose check results are all
Skipped; the `missing_chatbot_message` flag stays False (the branch that
would set it is unreachable because the pre-set Failed status short-circuits
it), so the generated error messages are exactly the concatenation of the
checks' messages — which is empty — and never contain a
"Chatbot message is missing" entry. -/
theorem missing_response_failed_with_skipped_checks
    (o : Oracles) (fields : List (String × String)) (checks : List Check)
    (skipped0 : Bool) :
    (chatbotRespondsToResult o fields checks skipped0 none).status = some .failed ∧
    ((chatbotRespondsToResult o fields checks skipped0 none).checks.all
      (fun c => c.status = .skipped)) = true ∧
    (chatbotRespondsToResult o fields checks skipped0 none).missing_chatbot_message
      = false ∧
    (chatbotRespondsToResult o fields checks skipped0 none).generateErrorMessages
      = ((chatbotRespondsToResult o fields checks skipped0 none).checks.map
          CheckResult.generateErrorMessages).flatten ∧
    (chatbotRespondsToResult o fields checks skipped0 none).generateErrorMessages
      = [] := by
  have hres : chatbotRespondsToResult o fields checks skipped0 none
      = { status := some .failed, metadata := fields,
          checks := checks.map (evalExpectation o fields true none),
          chatbot_response := none } := by
    simp [chatbotRespondsToResult]
  refine ⟨by rw [hres], ?_, by rw [hres], ?_, ?_⟩
  · rw [hres]
    simp only [List.all_eq_true, List.mem_map]
    rintro c ⟨c0, _, rfl⟩
    simp [evalExpectation_skipped_status]
  · rw [hres]
    rfl
  · rw [hres]
    show ((checks.map (evalExpectation o fields true none)).map
      CheckResult.generateErrorMessages).flatten = []
    induction checks with
    | nil => rfl
    | cons c cs ih => simp [evalExpectation_skipped_errors, ih]

/-- Mutable state owned by one `Adapter` instance for the duration of a
top-level `test()` call: the message log (`self.messages`), the pending
chatbot-message queue (`self.queue`, bodies in FIFO order), the external
metadata accumulator (`credence.metadata.metadata`), and the monotone turn
counter (`self.next_message_index`). -/
structure EngState where
  messages : List Message := []
  queue : List String := []
  acc : List (String × String) := []
  nextIndex : Nat := 0
deriving DecidableEq, Repr

/-- Dictionary update `metadata[key] = value` (`metadata.set_value`): an
existing entry for the key is overwritten in place, a new key is appended. -/
def setMetaAcc : List (String × String) → String → String → List (String × String)
  | [], k, v => [(k, v)]
  | p :: rest, k, v => if p.1 = k then (k, v) :: rest else p :: setMetaAcc rest k v

/-- Modelled from the spec: `Adapter._add_message` tags a Chatbot message
with `metadata.get_values()`, a helper that is absent from the sources (the
metadata module only defines `get_value`, `set_value` and `clear`).
Following the spec — the engine "snapshots and clears [the external
metadata sink] once per Chatbot message recorded" (§6), "Metadata
accumulated between chatbot messages is cleared after being snapshotted
into a Message" (§4.1) — recording a chatbot message appends it to the log
and the queue, stores the accumulated metadata as its snapshot, and clears
the accumulator; recording a user message only appends to the log.  Both
use and then increment the monotone index. -/
def addMessage (s : EngState) (role : Role) (body : String) : EngState :=
  match role with
  | .chatbot =>
    { messages := s.messages
        ++ [{ role := .chatbot, body := body, index := s.nextIndex,
              metadata := some s.acc }],
      queue := s.queue ++ [body],
      acc := [],
      nextIndex := s.nextIndex + 1 }
  | .user =>
    { s with
      messages := s.messages
        ++ [{ role := .user, body := body, index := s.nextIndex }],
      nextIndex := s.nextIndex + 1 }

/-- Operations that touch the metadata sink and the message log during one
run: `metadata.set_value` (reached through `credence.collect_metadata` from
anywhere inside `handle_message`) and the engine's recording of chatbot and
user messages. -/
inductive SinkOp where
  | set (k v : String)
  | recordChatbot (body : String)
  | recordUser (body : String)
deriving DecidableEq, Repr

/-- Effect of one sink operation on the adapter state. -/
def applySinkOp (s : EngState) : SinkOp → EngState
  | .set k v => { s with acc := setMetaAcc s.acc k v }
  | .recordChatbot b => addMessage s .chatbot b
  | .recordUser b => addMessage s .user b

/-- Replay of a sequence of sink operations. -/
def runSink (s : EngState) (ops : List SinkOp) : EngState :=
  ops.foldl applySinkOp s

/-- Recognizer for the chatbot-recording operation. -/
def SinkOp.isRecordChatbot : SinkOp → Bool
  | .recordChatbot _ => true
  | _ => false

/-- Effect of one sink operation on the accumulator alone (recording a user
message leaves the accumulator untouched). -/
def accStep (a : List (String × String)) : SinkOp → List (String × String)
  | .set k v => setMetaAcc a k v
  | _ => a

theorem runSink_append (s : EngState) (l1 l2 : List SinkOp) :
    runSink s (l1 ++ l2) = runSink (runSink s l1) l2 :=
  List.foldl_append ..

theorem runSink_acc_of_no_record (mid : List SinkOp) :
    ∀ s : EngState, (∀ op ∈ mid, op.isRecordChatbot = false) →
      (runSink s mid).acc = mid.foldl accStep s.acc := by
  induction mid with
  | nil => intro s _; rfl
  | cons op rest ih =>
    intro s hmid
    have hop := hmid op (List.mem_cons_self ..)
    have hrest : ∀ op ∈ rest, op.isRecordChatbot = false :=
      fun o ho => hmid o (List.mem_cons_of_mem _ ho)
    cases op with
    | set k v => simpa [runSink, accStep, applySinkOp] using ih _ hrest
    | recordChatbot b => simp [SinkOp.isRecordChatbot] at hop
    | recordUser b =>
      simpa [runSink, accStep, applySinkOp, addMessage] using ih _ hrest

theorem lookupMeta_setMetaAcc_ne (a : List (String × String))
    (k k' v : String) (h : ¬(k' = k)) :
    lookupMeta (setMetaAcc a k' v) k = lookupMeta a k := by
  induction a with
  | nil => simp [setMetaAcc, lookupMeta, List.find?, h]
  | cons p rest ih =>
    by_cases hp : p.1 = k'
    · simp only [setMetaAcc, hp, if_pos]
      simp [lookupMeta, List.find?_cons, hp, h]
    · simp only [setMetaAcc, hp, if_neg, not_false_iff]
      by_cases hpk : p.1 = k
      · simp [lookupMeta, List.find?_cons, hpk]
      · simpa [lookupMeta, List.find?_cons, hpk] using ih

theorem lookupMeta_foldl_accStep_not_set (k : String) (mid : List SinkOp) :
    ∀ a : List (String × String), (∀ v, SinkOp.set k v ∉ mid) →
      lookupMeta (mid.foldl accStep a) k = lookupMeta a k := by
  induction mid with
  | nil => intro a _; rfl
  | cons op rest ih =>
    intro a hk
    have hrest : ∀ v, SinkOp.set k v ∉ rest :=
      fun v hv => hk v (List.mem_cons_of_mem _ hv)
    cases op with
    | set k' v' =>
      have hne : ¬(k' = k) := by
        intro hkk
        exact hk v' (by rw [← hkk]; exact List.mem_cons_self ..)
      rw [List.foldl_cons]
      rw [ih _ hrest]
      exact lookupMeta_setMetaAcc_ne a k k' v' hne
    | recordChatbot b => simpa [accStep] using ih a hrest
    | recordUser b => simpa [accStep] using ih a hrest

/-- Claim C2: starting from a state whose accumulator is empty (which, by
the second conjunct, is exactly the state left behind by the previous
chatbot message), running any record-free mixture of metadata writes and
user-message recordings and then recording a chatbot message stores on that
message exactly the accumulated pairs, leaves the accumulator cleared, and
any key not written in between is absent from the snapshot. -/
theorem chatbot_message_metadata_snapshot
    (s0 : EngState) (mid : List SinkOp) (b : String)
    (hacc : s0.acc = [])
    (hmid : ∀ op ∈ mid, op.isRecordChatbot = false) :
    ((runSink s0 (mid ++ [.recordChatbot b])).messages.getLast?).map
        (fun m => (m.role, m.body, m.metadata))
      = some (.chatbot, b, some (mid.foldl accStep [])) ∧
    (runSink s0 (mid ++ [.recordChatbot b])).acc = [] ∧
    (∀ k, (∀ v, SinkOp.set k v ∉ mid) →
      lookupMeta (mid.foldl accStep []) k = none) := by
  have hsplit : runSink s0 (mid ++ [.recordChatbot b])
      = addMessage (runSink s0 mid) .chatbot b := by
    rw [runSink_append]; rfl
  have haccmid : (runSink s0 mid).acc = mid.foldl accStep [] := by
    rw [runSink_acc_of_no_record mid s0 hmid, hacc]
  refine ⟨?_, ?_, ?_⟩
  · rw [hsplit]
    simp [addMessage, List.getLast?_concat, haccmid]
  · rw [hsplit]; rfl
  · intro k hk
    have := lookupMeta_foldl_accStep_not_set k mid [] hk
    simpa [lookupMeta] using this

/-- Witness for C2: the math-chatbot turn of the repository's tests — the
handler sets `chatbot.handler` and `chatbot.math.result` while handling the
user message, then replies "2"; the snapshot holds exactly those pairs, the
accumulator is cleared, and an unrelated key is absent. -/
theorem chatbot_message_metadata_snapshot_witness :
    ((runSink {} ([.recordUser "math:1 + 1",
        .set "chatbot.handler" "math", .set "chatbot.math.result" "2"]
        ++ [.recordChatbot "2"])).messages.getLast?).map
        (fun m => (m.role, m.body, m.metadata))
      = some (.chatbot, "2",
          some [("chatbot.handler", "math"), ("chatbot.math.result", "2")]) ∧
    (runSink {} ([.recordUser "math:1 + 1",
        .set "chatbot.handler" "math", .set "chatbot.math.result" "2"]
        ++ [.recordChatbot "2"])).acc = [] ∧
    lookupMeta [("chatbot.handler", "math"), ("chatbot.math.result", "2")]
      "chatbot.other" = none := by
  have h := chatbot_message_metadata_snapshot {}
    [.recordUser "math:1 + 1",
      .set "chatbot.handler" "math", .set "chatbot.math.result" "2"] "2"
    rfl (by decide)
  refine ⟨?_, h.2.1, ?_⟩
  · have h1 := h.1
    rw [show ([.recordUser "math:1 + 1", .set "chatbot.handler" "math",
        .set "chatbot.math.result" "2"] : List SinkOp).foldl accStep []
        = [("chatbot.handler", "math"), ("chatbot.math.result", "2")] from by decide] at h1
    exact h1
  · have h3 := h.2.2 "chatbot.other" (by
      intro v hv
      simp only [List.mem_cons, List.not_mem_nil, or_false] at hv
      rcases hv with hv | hv | hv <;> simp at hv)
    rw [show ([.recordUser "math:1 + 1", .set "chatbot.handler" "math",
        .set "chatbot.math.result" "2"] : List SinkOp).foldl accStep []
        = [("chatbot.handler", "math"), ("chatbot.math.result", "2")] from by decide] at h3
    exact h3

/-- Serialized conversation entry as seen by the resolution loop of
`json.py::decode_conversations`: its id and the conversation ids referenced
by its `nested_conversation` interactions (the rest of the payload is
irrelevant to resolution). -/
structure RawEntry where
  id : String
  nestedRefs : List String
deriving DecidableEq, Repr

/-- Lookup in `raw_lookup = {entry["id"]: entry for entry in data}`: a
duplicated id keeps the last entry. -/
def refsOf (raw : List RawEntry) (cid : String) : List String :=
  match raw.reverse.find? (fun e => e.id = cid) with
  | some e => e.nestedRefs
  | none => []

/-- Outcome of one sweep of the `for cid in list(remaining)` loop. -/
structure SweepOut where
  remaining : List String
  decoded : List String
  progress : Bool
deriving DecidableEq, Repr

/-- One sweep over the still-unresolved ids, in order: an entry whose
nested references have all been decoded is decoded (appended to `decoded`,
removed from `remaining`, setting `progress`), any other entry is kept. -/
def sweep (raw : List RawEntry) : List String → List String → SweepOut
  | decoded, [] => ⟨[], decoded, false⟩
  | decoded, cid :: rest =>
    if (refsOf raw cid).all (fun nid => decoded.contains nid) then
      let out := sweep raw (decoded ++ [cid]) rest
      ⟨out.remaining, out.decoded, true⟩
    else
      let out := sweep raw decoded rest
      ⟨cid :: out.remaining, out.decoded, out.progress⟩

/-- Outcome of `decode_conversations`: all entries decoded, or the
`RuntimeError("Could not resolve dependencies for: ...")` carrying the
names of the unresolved entries.  `outOfFuel` is an artifact of the
explicit fuel; the termination theorem shows it is never produced. -/
inductive DecodeOutcome where
  | ok (decodedIds : List String)
  | unresolved (ids : List String)
  | outOfFuel
deriving DecidableEq, Repr

/-- Embedding of the `while remaining:` loop of `decode_conversations`,
with an explicit fuel bounding the number of sweeps: a sweep that makes
progress continues the loop, a sweep that does not raises the hard error
naming the unresolved entries. -/
def decodeLoop (raw : List RawEntry) : Nat → List String → List String → DecodeOutcome
  | 0, decoded, remaining =>
    if remaining.isEmpty then .ok decoded else .outOfFuel
  | fuel + 1, decoded, remaining =>
    if remaining.isEmpty then
      .ok decoded
    else
      let out := sweep raw decoded remaining
      if out.progress then decodeLoop raw fuel out.decoded out.remaining
      else .unresolved remaining

/-- Embedding of `decode_conversations`: the set of ids to resolve is the
key set of `raw_lookup` (each id once), and one sweep per entry is enough
fuel because every productive sweep resolves at least one entry. -/
def decode_conversations (raw : List RawEntry) : DecodeOutcome :=
  let ids := (raw.map (fun e => e.id)).dedup
  decodeLoop raw ids.length [] ids

/-- Order-sensitive well-formedness of a decode order: every id is decoded
only after all its nested references (`ctx` holds the ids decoded before
the list starts). -/
def depsRespected (raw : List RawEntry) : List String → List String → Bool
  | _, [] => true
  | ctx, c :: rest =>
    (refsOf raw c).all (fun nid => ctx.contains nid)
      && depsRespected raw (ctx ++ [c]) rest

theorem sweep_remaining_le (raw : List RawEntry) (remaining : List String) :
    ∀ decoded, (sweep raw decoded remaining).remaining.length ≤ remaining.length := by
  induction remaining with
  | nil => intro decoded; simp [sweep]
  | cons cid rest ih =>
    intro decoded
    by_cases h : (refsOf raw cid).all (fun nid => decoded.contains nid)
    · simp only [sweep, h, if_pos]
      exact Nat.le_succ_of_le (ih _)
    · simp only [sweep, h, if_neg, not_false_iff, List.length_cons]
      exact Nat.succ_le_succ (ih _)

theorem sweep_progress_lt (raw : List RawEntry) (remaining : List String) :
    ∀ decoded, (sweep raw decoded remaining).progress = true →
      (sweep raw decoded remaining).remaining.length < remaining.length := by
  induction remaining with
  | nil => intro decoded h; simp [sweep] at h
  | cons cid rest ih =>
    intro decoded hp
    by_cases h : (refsOf raw cid).all (fun nid => decoded.contains nid)
    · simp only [sweep, h, if_pos]
      exact Nat.lt_succ_of_le (sweep_remaining_le raw rest _)
    · simp only [sweep, h, if_neg, not_false_iff] at hp ⊢
      simp only [List.length_cons]
      exact Nat.succ_lt_succ (ih _ hp)

theorem sweep_remaining_subset (raw : List RawEntry) (remaining : List String) :
    ∀ decoded, ∀ x ∈ (sweep raw decoded remaining).remaining, x ∈ remaining := by
  induction remaining with
  | nil => intro decoded x hx; simp [sweep] at hx
  | cons cid rest ih =>
    intro decoded x hx
    by_cases h : (refsOf raw cid).all (fun nid => decoded.contains nid)
    · simp only [sweep, h, if_pos] at hx
      exact List.mem_cons_of_mem _ (ih _ x hx)
    · simp only [sweep, h, if_neg, not_false_iff, List.mem_cons] at hx
      cases hx with
      | head => exact List.mem_cons_self _ _
      | tail _ hx => exact List.mem_cons_of_mem _ (ih _ x hx)

theorem sweep_decoded_spec (raw : List RawEntry) (remaining : List String) :
    ∀ decoded, ∃ new, (sweep raw decoded remaining).decoded = decoded ++ new ∧
      depsRespected raw decoded new = true := by
  induction remaining with
  | nil => intro decoded; exact ⟨[], by simp [sweep], rfl⟩
  | cons cid rest ih =>
    intro decoded
    by_cases h : (refsOf raw cid).all (fun nid => decoded.contains nid)
    · obtain ⟨new, hdec, hdeps⟩ := ih (decoded ++ [cid])
      refine ⟨cid :: new, ?_, ?_⟩
      · simp only [sweep, h, if_pos]
        rw [hdec]
        simp
      · simp only [depsRespected, Bool.and_eq_true]
        exact ⟨h, hdeps⟩
    · obtain ⟨new, hdec, hdeps⟩ := ih decoded
      refine ⟨new, ?_, hdeps⟩
      simp only [sweep, h, if_neg, not_false_iff]
      exact hdec

theorem depsRespected_append (raw : List RawEntry) (l1 : List String) :
    ∀ l2 ctx, depsRespected raw ctx l1 = true →
      depsRespected raw (ctx ++ l1) l2 = true →
      depsRespected raw ctx (l1 ++ l2) = true := by
  induction l1 with
  | nil => intro l2 ctx _ h2; simpa using h2
  | cons c rest ih =>
    intro l2 ctx h1 h2
    simp only [depsRespected, Bool.and_eq_true] at h1
    simp only [List.cons_append, depsRespected, Bool.and_eq_true]
    refine ⟨h1.1, ih l2 (ctx ++ [c]) h1.2 ?_⟩
    rw [List.append_assoc]
    simpa using h2

theorem decodeLoop_no_outOfFuel (raw : List RawEntry) (fuel : Nat) :
    ∀ decoded remaining, remaining.length ≤ fuel →
      decodeLoop raw fuel decoded remaining ≠ .outOfFuel := by
  induction fuel with
  | zero =>
    intro decoded remaining hlen
    have : remaining = [] := List.eq_nil_of_length_eq_zero (Nat.le_zero.mp hlen)
    simp [decodeLoop, this]
  | succ fuel ih =>
    intro decoded remaining hlen
    by_cases hemp : remaining.isEmpty
    · simp [decodeLoop, hemp]
    · simp only [decodeLoop, hemp, Bool.false_eq_true, if_neg, not_false_iff]
      by_cases hp : (sweep raw decoded remaining).progress
      · simp only [hp, if_pos]
        exact ih _ _ (Nat.le_of_lt_succ
          (Nat.lt_of_lt_of_le (sweep_progress_lt raw remaining decoded hp) hlen))
      · simp [hp]

theorem decodeLoop_unresolved_spec (raw : List RawEntry) (fuel : Nat) :
    ∀ decoded remaining ns,
      decodeLoop raw fuel decoded remaining = .unresolved ns →
      ns ≠ [] ∧ ∀ x ∈ ns, x ∈ remaining := by
  induction fuel with
  | zero =>
    intro decoded remaining ns h
    by_cases hemp : remaining.isEmpty <;> simp [decodeLoop, hemp] at h
  | succ fuel ih =>
    intro decoded remaining ns h
    by_cases hemp : remaining.isEmpty
    · simp [decodeLoop, hemp] at h
    · simp only [decodeLoop, hemp, Bool.false_eq_true, if_neg, not_false_iff] at h
      by_cases hp : (sweep raw decoded remaining).progress
      · simp only [hp, if_pos] at h
        obtain ⟨hne, hsub⟩ := ih _ _ _ h
        exact ⟨hne, fun x hx =>
          sweep_remaining_subset raw remaining decoded x (hsub x hx)⟩
      · simp only [hp, Bool.false_eq_true, if_neg, not_false_iff,
          DecodeOutcome.unresolved.injEq] at h
        subst h
        exact ⟨fun hnil => by simp [hnil] at hemp, fun x hx => hx⟩

theorem decodeLoop_ok_deps (raw : List RawEntry) (fuel : Nat) :
    ∀ decoded remaining dec,
      depsRespected raw [] decoded = true →
      decodeLoop raw fuel decoded remaining = .ok dec →
      depsRespected raw [] dec = true := by
  induction fuel with
  | zero =>
    intro decoded remaining dec hd h
    by_cases hemp : remaining.isEmpty <;> simp [decodeLoop, hemp] at h
    exact h ▸ hd
  | succ fuel ih =>
    intro decoded remaining dec hd h
    by_cases hemp : remaining.isEmpty
    · simp only [decodeLoop, hemp, if_pos, DecodeOutcome.ok.injEq] at h
      exact h ▸ hd
    · simp only [decodeLoop, hemp, Bool.false_eq_true, if_neg, not_false_iff] at h
      by_cases hp : (sweep raw decoded remaining).progress
      · simp only [hp, if_pos] at h
        obtain ⟨new, hdec, hdeps⟩ := sweep_decoded_spec raw remaining decoded
        have hd' : depsRespected raw [] (sweep raw decoded remaining).decoded = true := by
          rw [hdec]
          exact depsRespected_append raw decoded new [] hd (by simpa using hdeps)
        exact ih _ _ _ hd' h
      · simp [hp] at h

/-- Claim C9: `decode_conversations` terminates on every input — one sweep
per entry is enough fuel because each sweep either resolves at least one
entry or aborts — and when it aborts it names a nonempty set of unresolved
entry ids drawn from the input, while a successful run decodes every entry
only after all the nested-conversation ids it references. -/
theorem decode_conversations_terminates (raw : List RawEntry) :
    decode_conversations raw ≠ .outOfFuel ∧
    (∀ ns, decode_conversations raw = .unresolved ns →
      ns ≠ [] ∧ ∀ x ∈ ns, x ∈ raw.map (fun e => e.id)) ∧
    (∀ dec, decode_conversations raw = .ok dec →
      depsRespected raw [] dec = true) := by
  refine ⟨decodeLoop_no_outOfFuel raw _ _ _ le_rfl, ?_, ?_⟩
  · intro ns h
    obtain ⟨hne, hsub⟩ := decodeLoop_unresolved_spec raw _ _ _ _ h
    exact ⟨hne, fun x hx => List.mem_dedup.mp (hsub x hx)⟩
  · intro dec h
    exact decodeLoop_ok_deps raw _ [] _ dec rfl h

/-- Witness for C9: a two-entry input with a self-referencing cycle aborts
naming both unresolved entries, and a resolvable input where the second
entry nests the first decodes in dependency order. -/
theorem decode_conversations_terminates_witness :
    ((["c", "d"] : List String) ≠ [] ∧
      ∀ x ∈ (["c", "d"] : List String),
        x ∈ ([⟨"c", ["d"]⟩, ⟨"d", ["d"]⟩] : List RawEntry).map (fun e => e.id)) ∧
    depsRespected [⟨"a", []⟩, ⟨"b", ["a"]⟩] [] ["a", "b"] = true ∧
    decode_conversations [⟨"c", ["d"]⟩, ⟨"d", ["d"]⟩] = .unresolved ["c", "d"] ∧
    decode_conversations [⟨"a", []⟩, ⟨"b", ["a"]⟩] = .ok ["a", "b"] := by
  refine ⟨(decode_conversations_terminates _).2.1 ["c", "d"] (by decide),
    (decode_conversations_terminates _).2.2 ["a", "b"] (by decide),
    by decide, by decide⟩

/-- Effect the chatbot under test may perform from inside `handle_message`
(or a `FunctionCall` capability): write a key into the external metadata
sink (`credence.collect_metadata`), or push a reply through the
`record_chatbot_message` callback. -/
inductive BotAction where
  | setMeta (k v : String)
  | record (body : String)
deriving DecidableEq, Repr

/-- Outcome of invoking a named adapter capability for a `FunctionCall`
interaction: a normal return (with its side effects) or an exception whose
formatted trace is captured. -/
inductive FuncOutcome where
  | ok (actions : List BotAction)
  | err (msg : String)
deriving DecidableEq, Repr

/-- Deterministic model of the caller-supplied adapter: the chatbot's
message handler (side effects plus optional direct reply), the user-message
generation capability, the named `FunctionCall` capabilities, and the
check-evaluation oracles. -/
structure AdapterModel where
  handle : String → List BotAction × Option String
  gen : String → String
  funcs : String → FuncOutcome
  oracles : Oracles

/-- Application of one chatbot-side effect to the adapter state. -/
def applyBotAction (s : EngState) : BotAction → EngState
  | .setMeta k v => { s with acc := setMetaAcc s.acc k v }
  | .record b => addMessage s .chatbot b

/-- Application of the effects performed during one `handle_message` call,
in order. -/
def applyBotActions (s : EngState) (acts : List BotAction) : EngState :=
  acts.foldl applyBotAction s

/-- Recording of a direct `handle_message` return value: the source guards
with `if chatbot_response:`, so `None` and the empty string are not
recorded. -/
def recordReply (s : EngState) : Option String → EngState
  | some r => if r = "" then s else addMessage s .chatbot r
  | none => s

/-- Scriptable interactions of a conversation (`interaction/*.py`):
user message (literal or generated), chatbot-response check bundle,
chatbot-ignores assertion, function call, and nested conversation (which
inlines the inner conversation's interaction list). -/
inductive Interaction where
  | user (text : String) (generated : Bool)
  | chatbotResponds (expectations : List Check)
  | chatbotIgnores
  | funcCall (name : String)
  | nested (name : String) (interactions : List Interaction)
deriving Repr

/-- Per-interaction results (the `InteractionResult` subclasses):
`UserMessageResult`, `ChatbotRespondsResult`, `ChatbotIgnoresMessageResult`,
`FunctionCallResult`, and `NestedConversationResult` (which embeds the inner
conversation's results and its `Result.failed` flag). -/
inductive InteractionResult where
  | user (status : Status) (user_message : Option String)
      (chatbot_response : Option String)
      (unexpected_chatbot_message : Option String)
  | responds (r : ChatbotRespondsResult)
  | ignores (status : Status) (unhandled_message : Option String)
  | func (status : Status) (name : String) (execution_error : Option String)
  | nested (status : Status) (name : String) (failed : Bool)
      (results : List InteractionResult)
deriving Repr

/-- Status of an interaction result (optional because
`ChatbotRespondsResult` can carry `status=None`, see
`chatbotRespondsToResult`). -/
def InteractionResult.status : InteractionResult → Option Status
  | .user st _ _ _ => some st
  | .responds r => r.status
  | .ignores st _ => some st
  | .func st _ _ => some st
  | .nested st _ _ _ => some st

/-- Skipped result for one check (`BaseCheck`-level `skipped()`
constructors). -/
def skippedCheckResult (c : Check) : CheckResult :=
  { status := .skipped, data := c }

/-- Modelled from the spec: the Skipped `ChatbotResponds` outcome the
engine emits downstream of a failure — "emit Skipped, still record which
checks would have run (as Skipped)" (§4.3). -/
def skippedRespondsResult (fields : List (String × String)) (checks : List Check)
    (resp : Option String) : ChatbotRespondsResult :=
  { status := some .skipped, metadata := fields,
    checks := checks.map skippedCheckResult, chatbot_response := resp }

/-- Output of dispatching one interaction: next state, threaded
`has_failed` flag, and the interaction's result. -/
structure StepOut where
  state : EngState
  hasFailed : Bool
  result : InteractionResult

/-- Output of walking an interaction sequence. -/
structure RunOut where
  state : EngState
  hasFailed : Bool
  results : List InteractionResult

/-- Modelled from the spec: the engine's user-message step (§4.3 row 1-2,
with the check order of `UserMessage.to_result` in `interaction/user.py`):
downstream of a failure emit Skipped without touching the adapter;
otherwise a pending chatbot message is consumed and reported as the Failed
"unexpected chatbot message" outcome without invoking the handler; with an
empty queue the (possibly generated) user text is recorded, handed to
`handle_message`, its side effects applied, and a truthy direct reply
recorded as a Chatbot message. -/
def runUser (ad : AdapterModel) (s : EngState) (hasFailed : Bool)
    (text : String) (generated : Bool) : StepOut :=
  if hasFailed then
    ⟨s, true, .user .skipped none none none⟩
  else
    match s.queue with
    | m :: rest =>
      ⟨{ s with queue := rest }, true, .user .failed none none (some m)⟩
    | [] =>
      let userText := if generated then ad.gen text else text
      let s1 := addMessage s .user userText
      let handback := ad.handle userText
      let s2 := applyBotActions s1 handback.1
      let s3 := recordReply s2 handback.2
      ⟨s3, false, .user .passed (some userText) handback.2 none⟩

/-- Modelled from the spec: the engine's `ChatbotResponds` step — the
queued message is consumed either way ("chatbot-consuming checks ... must
still consume/record but not act", §4.3); downstream of a failure the
Skipped bundle is emitted, otherwise the result is
`ChatbotResponds.to_result` against the popped message and the metadata
accumulator (which `to_result` then clears), and the flag transition is
`has_failed := has_failed OR (status != Passed)`. -/
def runResponds (ad : AdapterModel) (s : EngState) (hasFailed : Bool)
    (expectations : List Check) : StepOut :=
  match s.queue with
  | m :: rest =>
    if hasFailed then
      ⟨{ s with queue := rest }, true,
        .responds (skippedRespondsResult s.acc expectations (some m))⟩
    else
      let r := chatbotRespondsToResult ad.oracles s.acc expectations false (some m)
      ⟨{ s with queue := rest, acc := [] },
        if r.status = some .passed then false else true, .responds r⟩
  | [] =>
    if hasFailed then
      ⟨s, true, .responds (skippedRespondsResult s.acc expectations none)⟩
    else
      let r := chatbotRespondsToResult ad.oracles s.acc expectations false none
      ⟨{ s with acc := [] },
        if r.status = some .passed then false else true, .responds r⟩

/-- Modelled from the spec: the engine's `ChatbotIgnoresMessage` step
(§4.3 row 4 with `ChatbotIgnoresMessage.to_result`): Skipped downstream of
a failure; otherwise pop — Passed when nothing was pending, Failed with the
unhandled message when something was. -/
def runIgnores (s : EngState) (hasFailed : Bool) : StepOut :=
  if hasFailed then
    ⟨s, true, .ignores .skipped none⟩
  else
    match s.queue with
    | m :: rest => ⟨{ s with queue := rest }, true, .ignores .failed (some m)⟩
    | [] => ⟨s, false, .ignores .passed none⟩

/-- Dispatch on the capability invocation outcome used by `runFunc`:
Passed on normal return (side effects applied), Failed with the captured
error trace on exception. -/
def funcStep (s : EngState) (name : String) : FuncOutcome → StepOut
  | .ok actions => ⟨applyBotActions s actions, false, .func .passed name none⟩
  | .err msg => ⟨s, true, .func .failed name (some msg)⟩

/-- Modelled from the spec: the engine's `FunctionCall` step (§4.3 row 5):
Skipped without invoking the capability downstream of a failure; otherwise
Passed on normal return or Failed with the captured error trace. -/
def runFunc (ad : AdapterModel) (s : EngState) (hasFailed : Bool)
    (name : String) : StepOut :=
  if hasFailed then
    ⟨s, true, .func .skipped name none⟩
  else
    funcStep s name (ad.funcs name)

mutual
/-- Modelled from the spec: the engine's dispatch of one interaction
(§4.3).  The `Result`-producing revision of `Adapter.test` is absent from
the sources (the `adapter.py` present is an older `TestResult`-based
revision whose `test` calls methods that no longer exist); the walk
threads the monotone `has_failed` flag and recurses into nested
conversations sharing the same state, the nested node's status mirroring
`NestedConversation.to_result` (Skipped when entered downstream of a
failure, else Failed iff the inner run failed). -/
def runOne (ad : AdapterModel) (s : EngState) (hasFailed : Bool) :
    Interaction → StepOut
  | .user text generated => runUser ad s hasFailed text generated
  | .chatbotResponds expectations => runResponds ad s hasFailed expectations
  | .chatbotIgnores => runIgnores s hasFailed
  | .funcCall name => runFunc ad s hasFailed name
  | .nested name inner =>
    let out := runList ad s hasFailed inner
    let innerFailed := out.results.any (fun r => r.status = some .failed)
    let st := if hasFailed then Status.skipped
      else if innerFailed then Status.failed else Status.passed
    ⟨out.state, out.hasFailed, .nested st name innerFailed out.results⟩

/-- Modelled from the spec: the engine's walk of an interaction sequence,
threading state and the `has_failed` flag left to right. -/
def runList (ad : AdapterModel) (s : EngState) (hasFailed : Bool) :
    List Interaction → RunOut
  | [] => ⟨s, hasFailed, []⟩
  | i :: rest =>
    let o1 := runOne ad s hasFailed i
    let o2 := runList ad o1.state o1.hasFailed rest
    ⟨o2.state, o2.hasFailed, o1.result :: o2.results⟩
end

/-- A scripted conversation (`conversation.py`): title and ordered
interactions. -/
structure Conversation where
  title : String
  interactions : List Interaction

/-- Aggregated run result (`credence/result/__init__.py::Result`):
message log, overall `failed` flag, title, and per-interaction results. -/
structure RunResult where
  messages : List Message
  failed : Bool
  title : String
  interaction_results : List InteractionResult

/-- Modelled from the spec: the top-level `test()` entry point — a fresh
engine state, a walk of the conversation from `has_failed = false`, and a
`Result` whose `failed` flag is set iff some interaction result (nested
failures propagate to their wrapper's status) is Failed. -/
def test (ad : AdapterModel) (conv : Conversation) : RunResult :=
  let out := runList ad {} false conv.interactions
  { messages := out.state.messages,
    failed := out.results.any (fun r => r.status = some .failed),
    title := conv.title,
    interaction_results := out.results }

mutual
/-- Flattened status sequence of a result tree in execution order: nested
conversations are inlined (their wrapper node contributes no entry of its
own, mirroring the flattening of `_do_get_internal_interactions`), so the
list holds one status per scripted leaf interaction. -/
def flatOne : InteractionResult → List (Option Status)
  | .nested _ _ _ results => flatList results
  | r => [r.status]

/-- Flattened status sequence of a result list. -/
def flatList : List InteractionResult → List (Option Status)
  | [] => []
  | r :: rest => flatOne r ++ flatList rest
end

mutual
/-- Structural correspondence between a script and a result tree: one
result per interaction, of the matching variant, recursively inside nested
conversations. -/
def shapeOkOne : Interaction → InteractionResult → Bool
  | .user _ _, .user _ _ _ _ => true
  | .chatbotResponds _, .responds _ => true
  | .chatbotIgnores, .ignores _ _ => true
  | .funcCall _, .func _ _ _ => true
  | .nested _ inner, .nested _ _ _ results => shapeOkList inner results
  | _, _ => false

/-- Structural correspondence between an interaction list and a result
list. -/
def shapeOkList : List Interaction → List InteractionResult → Bool
  | [], [] => true
  | i :: is, r :: rs => shapeOkOne i r && shapeOkList is rs
  | _, _ => false
end

/-- Valid status trace from a given `has_failed` flag: before any failure
every status is Passed, a single Failed flips the flag, and from a raised
flag on every status is Skipped. -/
def traceOK : Bool → List (Option Status) → Bool
  | _, [] => true
  | true, st :: rest => (st = some Status.skipped) && traceOK true rest
  | false, st :: rest =>
    ((st = some Status.passed) && traceOK false rest)
      || ((st = some Status.failed) && traceOK true rest)

theorem flatOne_user (st : Status) (a b c : Option String) :
    flatOne (.user st a b c) = [some st] := rfl

theorem flatOne_responds (r : ChatbotRespondsResult) :
    flatOne (.responds r) = [r.status] := rfl

theorem flatOne_ignores (st : Status) (u : Option String) :
    flatOne (.ignores st u) = [some st] := rfl

theorem flatOne_func (st : Status) (n : String) (e : Option String) :
    flatOne (.func st n e) = [some st] := rfl

theorem flatOne_nested (st : Status) (n : String) (fl : Bool)
    (rs : List InteractionResult) :
    flatOne (.nested st n fl rs) = flatList rs := rfl

theorem flatList_nil : flatList [] = [] := rfl

theorem flatList_cons (r : InteractionResult) (rs : List InteractionResult) :
    flatList (r :: rs) = flatOne r ++ flatList rs := rfl

theorem runList_nil (ad : AdapterModel) (s : EngState) (f : Bool) :
    runList ad s f [] = ⟨s, f, []⟩ := rfl

theorem runList_cons (ad : AdapterModel) (s : EngState) (f : Bool)
    (i : Interaction) (rest : List Interaction) :
    runList ad s f (i :: rest)
      = ⟨(runList ad (runOne ad s f i).state (runOne ad s f i).hasFailed rest).state,
         (runList ad (runOne ad s f i).state (runOne ad s f i).hasFailed rest).hasFailed,
         (runOne ad s f i).result
           :: (runList ad (runOne ad s f i).state (runOne ad s f i).hasFailed rest).results⟩ :=
  rfl

theorem runOne_user (ad : AdapterModel) (s : EngState) (f : Bool)
    (text : String) (generated : Bool) :
    runOne ad s f (.user text generated) = runUser ad s f text generated := rfl

theorem runOne_responds (ad : AdapterModel) (s : EngState) (f : Bool)
    (expectations : List Check) :
    runOne ad s f (.chatbotResponds expectations)
      = runResponds ad s f expectations := rfl

theorem runOne_ignores (ad : AdapterModel) (s : EngState) (f : Bool) :
    runOne ad s f .chatbotIgnores = runIgnores s f := rfl

theorem runOne_func (ad : AdapterModel) (s : EngState) (f : Bool) (name : String) :
    runOne ad s f (.funcCall name) = runFunc ad s f name := rfl

theorem runOne_nested (ad : AdapterModel) (s : EngState) (f : Bool)
    (name : String) (inner : List Interaction) :
    runOne ad s f (.nested name inner)
      = ⟨(runList ad s f inner).state, (runList ad s f inner).hasFailed,
         .nested
           (if f then Status.skipped
            else if (runList ad s f inner).results.any
                (fun r => r.status = some Status.failed) then Status.failed
            else Status.passed)
           name
           ((runList ad s f inner).results.any
             (fun r => r.status = some Status.failed))
           (runList ad s f inner).results⟩ := rfl

theorem respondsStatus_cases (o : Oracles) (fields : List (String × String))
    (checks : List Check) (resp : Option String) :
    (chatbotRespondsToResult o fields checks false resp).status = some Status.passed ∨
      (chatbotRespondsToResult o fields checks false resp).status = some Status.failed := by
  cases resp with
  | none => right; rfl
  | some m =>
    simp only [chatbotRespondsToResult, Option.isNone_some, Bool.false_eq_true,
      if_neg, not_false_iff]
    by_cases h : (List.map (evalExpectation o fields false (some m)) checks).any
        (fun c => c.status = .failed)
    · right; simp [h]
    · left; simp [h]

mutual
theorem runOne_skip (ad : AdapterModel) (i : Interaction) :
    ∀ s : EngState,
      (runOne ad s true i).hasFailed = true ∧
      shapeOkOne i (runOne ad s true i).result = true ∧
      (flatOne (runOne ad s true i).result).all
        (fun st => st = some Status.skipped) = true ∧
      (runOne ad s true i).result.status = some Status.skipped := by
  cases i with
  | user text generated =>
    intro s
    simp [runOne_user, runUser, shapeOkOne, flatOne_user, InteractionResult.status]
  | chatbotResponds expectations =>
    intro s
    obtain ⟨msgs, q, acc, idx⟩ := s
    cases q <;>
      simp [runOne_responds, runResponds, shapeOkOne, flatOne_responds,
        skippedRespondsResult, InteractionResult.status]
  | chatbotIgnores =>
    intro s
    simp [runOne_ignores, runIgnores, shapeOkOne, flatOne_ignores,
      InteractionResult.status]
  | funcCall name =>
    intro s
    simp [runOne_func, runFunc, shapeOkOne, flatOne_func, InteractionResult.status]
  | nested name inner =>
    intro s
    have hlist := runList_skip ad inner s
    refine ⟨?_, ?_, ?_, ?_⟩
    · rw [runOne_nested]
      exact hlist.1
    · rw [runOne_nested]
      exact hlist.2.1
    · rw [runOne_nested]
      simpa [flatOne_nested] using hlist.2.2.1
    · rw [runOne_nested]
      simp [InteractionResult.status]
termination_by sizeOf i

theorem runList_skip (ad : AdapterModel) (is : List Interaction) :
    ∀ s : EngState,
      (runList ad s true is).hasFailed = true ∧
      shapeOkList is (runList ad s true is).results = true ∧
      (flatList (runList ad s true is).results).all
        (fun st => st = some Status.skipped) = true ∧
      (runList ad s true is).results.all
        (fun r => r.status = some Status.skipped) = true := by
  cases is with
  | nil => intro s; simp [runList_nil, shapeOkList, flatList_nil]
  | cons i rest =>
    intro s
    have hone := runOne_skip ad i s
    have hflag := hone.1
    have hlist := runList_skip ad rest (runOne ad s true i).state
    rw [runList_cons]
    refine ⟨?_, ?_, ?_, ?_⟩
    · rw [hflag]
      exact (runList_skip ad rest (runOne ad s true i).state).1
    · simp only [shapeOkList, Bool.and_eq_true]
      rw [hflag]
      exact ⟨hone.2.1, (runList_skip ad rest (runOne ad s true i).state).2.1⟩
    · simp only [flatList_cons, List.all_append, Bool.and_eq_true]
      rw [hflag]
      exact ⟨hone.2.2.1, (runList_skip ad rest (runOne ad s true i).state).2.2.1⟩
    · simp only [List.all_cons, Bool.and_eq_true]
      rw [hflag]
      refine ⟨by simp [hone.2.2.2], (runList_skip ad rest (runOne ad s true i).state).2.2.2⟩
termination_by sizeOf is
end

theorem traceOK_true_of_all_skipped (l : List (Option Status)) :
    l.all (fun st => st = some Status.skipped) = true → traceOK true l = true := by
  induction l with
  | nil => intro _; rfl
  | cons st rest ih =>
    intro h
    simp only [List.all_cons, Bool.and_eq_true] at h
    simp only [traceOK, Bool.and_eq_true]
    exact ⟨h.1, ih h.2⟩

theorem traceOK_true_all_skipped (l : List (Option Status)) :
    traceOK true l = true → l.all (fun st => st = some Status.skipped) = true := by
  induction l with
  | nil => intro _; rfl
  | cons st rest ih =>
    intro h
    simp only [traceOK, Bool.and_eq_true] at h
    simp only [List.all_cons, Bool.and_eq_true]
    exact ⟨h.1, ih h.2⟩

theorem traceOK_true_append (l1 l2 : List (Option Status)) :
    traceOK true l1 = true → traceOK true l2 = true →
      traceOK true (l1 ++ l2) = true := by
  induction l1 with
  | nil => intro _ h2; simpa using h2
  | cons st rest ih =>
    intro h1 h2
    simp only [traceOK, Bool.and_eq_true] at h1
    simp only [List.cons_append, traceOK, Bool.and_eq_true]
    exact ⟨h1.1, ih h1.2 h2⟩

theorem traceOK_append (l1 : List (Option Status)) :
    ∀ (f : Bool) (l2 : List (Option Status)), traceOK f l1 = true →
      traceOK (f || l1.any (fun st => st = some Status.failed)) l2 = true →
      traceOK f (l1 ++ l2) = true := by
  induction l1 with
  | nil =>
    intro f l2 _ h2
    simpa using h2
  | cons st rest ih =>
    intro f l2 h1 h2
    cases f with
    | true =>
      simp only [traceOK, Bool.and_eq_true] at h1
      simp only [List.cons_append, traceOK, Bool.and_eq_true]
      refine ⟨h1.1, ih true l2 h1.2 ?_⟩
      simpa using h2
    | false =>
      simp only [traceOK, Bool.or_eq_true, Bool.and_eq_true] at h1
      rcases h1 with ⟨hp, hr⟩ | ⟨hp, hr⟩
      · replace hp := of_decide_eq_true hp
        subst hp
        simp only [List.cons_append, traceOK, Bool.or_eq_true, Bool.and_eq_true]
        left
        refine ⟨by decide, ih false l2 hr ?_⟩
        simpa using h2
      · replace hp := of_decide_eq_true hp
        subst hp
        simp only [List.cons_append, traceOK, Bool.or_eq_true, Bool.and_eq_true]
        right
        refine ⟨by decide, traceOK_true_append rest l2 hr ?_⟩
        simpa using h2

theorem traceOK_split (post : List (Option Status)) :
    ∀ (pre : List (Option Status)) (f : Bool),
      traceOK f (pre ++ some Status.failed :: post) = true →
      post.all (fun st => st = some Status.skipped) = true := by
  intro pre
  induction pre with
  | nil =>
    intro f h
    cases f with
    | true => simp [traceOK] at h
    | false =>
      simp only [List.nil_append, traceOK, Bool.or_eq_true, Bool.and_eq_true] at h
      rcases h with ⟨hp, _⟩ | ⟨_, hr⟩
      · exact absurd (of_decide_eq_true hp) (by decide)
      · exact traceOK_true_all_skipped post hr
  | cons st pre' ih =>
    intro f h
    cases f with
    | true =>
      simp only [List.cons_append, traceOK, Bool.and_eq_true] at h
      exact ih true h.2
    | false =>
      simp only [List.cons_append, traceOK, Bool.or_eq_true, Bool.and_eq_true] at h
      rcases h with ⟨_, hr⟩ | ⟨_, hr⟩
      · exact ih false hr
      · exact ih true hr

theorem status_nested (st : Status) (n : String) (fl : Bool)
    (rs : List InteractionResult) :
    (InteractionResult.nested st n fl rs).status = some st := rfl

theorem runUser_inv (ad : AdapterModel) (text : String) (generated : Bool)
    (s : EngState) :
    shapeOkOne (.user text generated)
        (runOne ad s false (.user text generated)).result = true ∧
      traceOK false (flatOne (runOne ad s false (.user text generated)).result) = true ∧
      (runOne ad s false (.user text generated)).hasFailed
        = (flatOne (runOne ad s false (.user text generated)).result).any
            (fun st => st = some Status.failed) ∧
      decide ((runOne ad s false (.user text generated)).result.status
          = some Status.failed)
        = (flatOne (runOne ad s false (.user text generated)).result).any
            (fun st => st = some Status.failed) := by
  obtain ⟨msgs, q, acc, idx⟩ := s
  cases q <;>
    simp [runOne_user, runUser, shapeOkOne, flatOne_user, traceOK,
      InteractionResult.status]

theorem runResponds_inv (ad : AdapterModel) (expectations : List Check)
    (s : EngState) :
    shapeOkOne (.chatbotResponds expectations)
        (runOne ad s false (.chatbotResponds expectations)).result = true ∧
      traceOK false
        (flatOne (runOne ad s false (.chatbotResponds expectations)).result) = true ∧
      (runOne ad s false (.chatbotResponds expectations)).hasFailed
        = (flatOne (runOne ad s false (.chatbotResponds expectations)).result).any
            (fun st => st = some Status.failed) ∧
      decide ((runOne ad s false (.chatbotResponds expectations)).result.status
          = some Status.failed)
        = (flatOne (runOne ad s false (.chatbotResponds expectations)).result).any
            (fun st => st = some Status.failed) := by
  obtain ⟨msgs, q, acc, idx⟩ := s
  cases q with
  | nil =>
    rcases respondsStatus_cases ad.oracles acc expectations none with hs | hs <;>
      simp [runOne_responds, runResponds, hs, shapeOkOne, flatOne_responds,
        traceOK, InteractionResult.status]
  | cons m rest =>
    rcases respondsStatus_cases ad.oracles acc expectations (some m) with hs | hs <;>
      simp [runOne_responds, runResponds, hs, shapeOkOne, flatOne_responds,
        traceOK, InteractionResult.status]

theorem runIgnores_inv (ad : AdapterModel) (s : EngState) :
    shapeOkOne .chatbotIgnores
        (runOne ad s false .chatbotIgnores).result = true ∧
      traceOK false (flatOne (runOne ad s false .chatbotIgnores).result) = true ∧
      (runOne ad s false .chatbotIgnores).hasFailed
        = (flatOne (runOne ad s false .chatbotIgnores).result).any
            (fun st => st = some Status.failed) ∧
      decide ((runOne ad s false .chatbotIgnores).result.status
          = some Status.failed)
        = (flatOne (runOne ad s false .chatbotIgnores).result).any
            (fun st => st = some Status.failed) := by
  obtain ⟨msgs, q, acc, idx⟩ := s
  cases q <;>
    simp [runOne_ignores, runIgnores, shapeOkOne, flatOne_ignores, traceOK,
      InteractionResult.status]

theorem runFunc_inv (ad : AdapterModel) (name : String) (s : EngState) :
    shapeOkOne (.funcCall name)
        (runOne ad s false (.funcCall name)).result = true ∧
      traceOK false (flatOne (runOne ad s false (.funcCall name)).result) = true ∧
      (runOne ad s false (.funcCall name)).hasFailed
        = (flatOne (runOne ad s false (.funcCall name)).result).any
            (fun st => st = some Status.failed) ∧
      decide ((runOne ad s false (.funcCall name)).result.status
          = some Status.failed)
        = (flatOne (runOne ad s false (.funcCall name)).result).any
            (fun st => st = some Status.failed) := by
  have h : ∀ fo : FuncOutcome,
      shapeOkOne (.funcCall name) (funcStep s name fo).result = true ∧
      traceOK false (flatOne (funcStep s name fo).result) = true ∧
      (funcStep s name fo).hasFailed
        = (flatOne (funcStep s name fo).result).any
            (fun st => st = some Status.failed) ∧
      decide ((funcStep s name fo).result.status = some Status.failed)
        = (flatOne (funcStep s name fo).result).any
            (fun st => st = some Status.failed) := by
    intro fo
    cases fo <;>
      simp [funcStep, shapeOkOne, flatOne_func, traceOK, InteractionResult.status]
  simpa [runOne_func, runFunc] using h (ad.funcs name)

mutual
theorem runOne_inv (ad : AdapterModel) (i : Interaction) :
    ∀ s : EngState,
      shapeOkOne i (runOne ad s false i).result = true ∧
      traceOK false (flatOne (runOne ad s false i).result) = true ∧
      (runOne ad s false i).hasFailed
        = (flatOne (runOne ad s false i).result).any
            (fun st => st = some Status.failed) ∧
      decide ((runOne ad s false i).result.status = some Status.failed)
        = (flatOne (runOne ad s false i).result).any
            (fun st => st = some Status.failed) := by
  cases i with
  | user text generated => exact runUser_inv ad text generated
  | chatbotResponds expectations => exact runResponds_inv ad expectations
  | chatbotIgnores => exact runIgnores_inv ad
  | funcCall name => exact runFunc_inv ad name
  | nested name inner =>
    intro s
    have ih := runList_inv ad inner s
    rw [runOne_nested]
    refine ⟨ih.1, ?_, ?_, ?_⟩
    · simpa [flatOne_nested] using ih.2.1
    · simpa [flatOne_nested] using ih.2.2.1
    · simp only [flatOne_nested, status_nested]
      rw [← ih.2.2.2]
      cases hb : (runList ad s false inner).results.any
          (fun r => r.status = some Status.failed) <;> simp
termination_by sizeOf i

theorem runList_inv (ad : AdapterModel) (is : List Interaction) :
    ∀ s : EngState,
      shapeOkList is (runList ad s false is).results = true ∧
      traceOK false (flatList (runList ad s false is).results) = true ∧
      (runList ad s false is).hasFailed
        = (flatList (runList ad s false is).results).any
            (fun st => st = some Status.failed) ∧
      (runList ad s false is).results.any
          (fun r => r.status = some Status.failed)
        = (flatList (runList ad s false is).results).any
            (fun st => st = some Status.failed) := by
  cases is with
  | nil => intro s; simp [runList_nil, shapeOkList, flatList_nil, traceOK]
  | cons i rest =>
    intro s
    have h1 := runOne_inv ad i s
    rw [runList_cons]
    cases hfl : (runOne ad s false i).hasFailed with
    | false =>
      have h2 := runList_inv ad rest (runOne ad s false i).state
      have ha : (flatOne (runOne ad s false i).result).any
          (fun st => st = some Status.failed) = false := by
        rw [← h1.2.2.1]; exact hfl
      refine ⟨?_, ?_, ?_, ?_⟩
      · simp only [shapeOkList, Bool.and_eq_true]
        exact ⟨h1.1, h2.1⟩
      · simp only [flatList_cons]
        refine traceOK_append _ false _ h1.2.1 ?_
        rw [ha]
        simpa using h2.2.1
      · simp only [flatList_cons, List.any_append, ha, Bool.false_or]
        exact h2.2.2.1
      · simp only [List.any_cons, flatList_cons, List.any_append, ha, Bool.false_or]
        rw [h1.2.2.2, ha]
        simpa using h2.2.2.2
    | true =>
      have h2 := runList_skip ad rest (runOne ad s false i).state
      have ha : (flatOne (runOne ad s false i).result).any
          (fun st => st = some Status.failed) = true := by
        rw [← h1.2.2.1]; exact hfl
      refine ⟨?_, ?_, ?_, ?_⟩
      · simp only [shapeOkList, Bool.and_eq_true]
        exact ⟨h1.1, h2.2.1⟩
      · simp only [flatList_cons]
        refine traceOK_append _ false _ h1.2.1 ?_
        rw [ha]
        simpa using traceOK_true_of_all_skipped _ h2.2.2.1
      · simp only [flatList_cons, List.any_append, ha, Bool.true_or]
        exact h2.1
      · simp only [List.any_cons, flatList_cons, List.any_append, ha, Bool.true_or]
        rw [h1.2.2.2, ha]
        simp
termination_by sizeOf is
end

theorem applyBotActions_messages (acts : List BotAction) :
    ∀ s : EngState, ∃ tl, (applyBotActions s acts).messages = s.messages ++ tl := by
  induction acts with
  | nil => intro s; exact ⟨[], by simp [applyBotActions]⟩
  | cons a as ih =>
    intro s
    cases a with
    | setMeta k v =>
      obtain ⟨tl, htl⟩ := ih { s with acc := setMetaAcc s.acc k v }
      exact ⟨tl, by simpa [applyBotActions, applyBotAction] using htl⟩
    | record b =>
      obtain ⟨tl, htl⟩ := ih (addMessage s .chatbot b)
      refine ⟨({ role := .chatbot, body := b, index := s.nextIndex, metadata := some s.acc } : Message) :: tl, ?_⟩
      have hmsg : (applyBotActions (addMessage s .chatbot b) as).messages
          = (addMessage s .chatbot b).messages ++ tl := htl
      simp only [applyBotActions] at hmsg ⊢
      simp only [List.foldl_cons, applyBotAction]
      rw [hmsg]
      simp [addMessage]

theorem recordReply_messages (r : Option String) (s : EngState) :
    ∃ tl, (recordReply s r).messages = s.messages ++ tl := by
  cases r with
  | none => exact ⟨[], by simp [recordReply]⟩
  | some v =>
    by_cases hv : v = ""
    · exact ⟨[], by simp [recordReply, hv]⟩
    · exact ⟨[({ role := .chatbot, body := v, index := s.nextIndex, metadata := some s.acc } : Message)], by simp [recordReply, hv, addMessage]⟩

theorem recordReply_some (s : EngState) (r : String) (h : ¬(r = "")) :
    recordReply s (some r) = addMessage s .chatbot r := by
  simp [recordReply, h]

/-- Claim C1: in every execution of `test()`, once an interaction in the
flattened (execution-order, nested-conversations-inlined) sequence yields a
Failed outcome, every later entry of that sequence is Skipped — never
Passed or Failed — and the result tree still has one interaction outcome
per scripted interaction, of the matching variant, recursively. -/
theorem failed_propagates_skip (ad : AdapterModel) (conv : Conversation) :
    shapeOkList conv.interactions (test ad conv).interaction_results = true ∧
    ∀ pre post : List (Option Status),
      flatList (test ad conv).interaction_results
        = pre ++ some Status.failed :: post →
      post.all (fun st => st = some Status.skipped) = true := by
  have h := runList_inv ad conv.interactions {}
  refine ⟨h.1, ?_⟩
  intro pre post hsplit
  have htr := h.2.1
  have hres : (test ad conv).interaction_results
      = (runList ad {} false conv.interactions).results := rfl
  rw [hres] at hsplit
  rw [hsplit] at htr
  exact traceOK_split post pre false htr

/-- Adapter model used by the engine witnesses: the handler always replies
"Hello there", functions succeed, the evaluator approves everything. -/
def witnessAdapter : AdapterModel :=
  { handle := fun _ => ([], some "Hello there"),
    gen := fun p => p,
    funcs := fun _ => .ok [],
    oracles := ⟨fun _ _ => true, fun _ => ⟨true, "ok"⟩⟩ }

/-- Conversation used by the C1 witness: the leading `ChatbotResponds`
fails (no message is pending), so the user turn and the whole nested
sub-conversation after it must be Skipped. -/
def witnessConversation : Conversation :=
  ⟨"skips after failure",
    [.chatbotResponds [], .user "Hi" false,
      .nested "flow" [.user "x" false, .chatbotIgnores]]⟩

/-- Witness for C1: the concrete run flattens to
`[Failed, Skipped, Skipped, Skipped]` and the theorem yields the all-Skipped
tail and the structural correspondence. -/
theorem failed_propagates_skip_witness :
    shapeOkList witnessConversation.interactions
      (test witnessAdapter witnessConversation).interaction_results = true ∧
    ([some Status.skipped, some Status.skipped, some Status.skipped]
        : List (Option Status)).all (fun st => st = some Status.skipped) = true ∧
    flatList (test witnessAdapter witnessConversation).interaction_results
      = [some Status.failed, some Status.skipped, some Status.skipped,
          some Status.skipped] := by
  refine ⟨(failed_propagates_skip witnessAdapter witnessConversation).1,
    (failed_propagates_skip witnessAdapter witnessConversation).2 []
      [some Status.skipped, some Status.skipped, some Status.skipped] (by decide),
    by decide⟩

/-- Claim C7: a `ChatbotResponds` with an empty check list, executed with no
prior failure, is Passed exactly when a chatbot message was pending in the
queue when it ran — whatever that message's content (the state `s`, and
with it the pending body, is universally quantified). -/
theorem empty_checks_passed_iff_pending (ad : AdapterModel) (s : EngState) :
    (runOne ad s false (.chatbotResponds [])).result.status = some Status.passed
      ↔ s.queue ≠ [] := by
  obtain ⟨msgs, q, acc, idx⟩ := s
  cases q with
  | nil =>
    simp [runOne_responds, runResponds, chatbotRespondsToResult,
      InteractionResult.status]
  | cons m rest =>
    simp [runOne_responds, runResponds, chatbotRespondsToResult,
      InteractionResult.status]

/-- Claim C8: `test()` on a conversation without interactions returns a
non-failed result with an empty interaction-result list and an empty
message log. -/
theorem empty_conversation_empty_result (ad : AdapterModel) (title : String) :
    test ad ⟨title, []⟩
      = { messages := [], failed := false, title := title,
          interaction_results := [] } := rfl

/-- Claim C6: a user-message interaction executed while a chatbot message
is pending consumes it and yields the Failed "unexpected chatbot message"
outcome without consulting the adapter at all (the output is identical for
any two adapters); with an empty queue the user text is recorded at the
next log position, the turn is Passed, and a non-empty direct reply of
`handle_message` is recorded as the final Chatbot message. -/
theorem user_turn_queue_protocol
    (ad ad2 : AdapterModel) (s : EngState) (text m : String)
    (rest : List String) (generated : Bool)
    (hq : s.queue = m :: rest) :
    (runOne ad s false (.user text generated)).result
      = .user .failed none none (some m) ∧
    (runOne ad s false (.user text generated)).hasFailed = true ∧
    (runOne ad s false (.user text generated)).state = { s with queue := rest } ∧
    runOne ad s false (.user text generated)
      = runOne ad2 s false (.user text generated) ∧
    (∀ s2 : EngState, s2.queue = [] →
      (runOne ad s2 false (.user text false)).result.status = some Status.passed ∧
      (runOne ad s2 false (.user text false)).state.messages.take
          (s2.messages.length + 1)
        = s2.messages ++ [{ role := .user, body := text, index := s2.nextIndex }] ∧
      (∀ r : String, (ad.handle text).2 = some r → ¬(r = "") →
        ((runOne ad s2 false (.user text false)).state.messages.getLast?).map
            (fun mm => (mm.role, mm.body))
          = some (.chatbot, r))) := by
  refine ⟨?_, ?_, ?_, ?_, ?_⟩
  · simp [runOne_user, runUser, hq]
  · simp [runOne_user, runUser, hq]
  · simp [runOne_user, runUser, hq]
  · simp [runOne_user, runUser, hq]
  · intro s2 hq2
    obtain ⟨msgs2, q2, acc2, idx2⟩ := s2
    simp only at hq2
    subst hq2
    have hrun : runOne ad ⟨msgs2, [], acc2, idx2⟩ false (.user text false)
        = ⟨recordReply
            (applyBotActions (addMessage ⟨msgs2, [], acc2, idx2⟩ .user text)
              (ad.handle text).1)
            (ad.handle text).2,
          false, .user .passed (some text) (ad.handle text).2 none⟩ := by
      simp [runOne_user, runUser]
    refine ⟨by rw [hrun]; rfl, ?_, ?_⟩
    · rw [hrun]
      obtain ⟨tl1, htl1⟩ := applyBotActions_messages (ad.handle text).1
        (addMessage ⟨msgs2, [], acc2, idx2⟩ .user text)
      obtain ⟨tl2, htl2⟩ := recordReply_messages (ad.handle text).2
        (applyBotActions (addMessage ⟨msgs2, [], acc2, idx2⟩ .user text)
          (ad.handle text).1)
      show (recordReply (applyBotActions (addMessage ⟨msgs2, [], acc2, idx2⟩
          .user text) (ad.handle text).1) (ad.handle text).2).messages.take
          (msgs2.length + 1)
        = msgs2 ++ [{ role := .user, body := text, index := idx2 }]
      rw [htl2, htl1]
      have hadd : (addMessage ⟨msgs2, [], acc2, idx2⟩ .user text).messages
          = msgs2 ++ [{ role := .user, body := text, index := idx2 }] := by
        simp [addMessage]
      rw [hadd, List.append_assoc, List.append_assoc]
      rw [← List.append_assoc msgs2]
      have hlen : (msgs2 ++ [({ role := .user, body := text, index := idx2 }
          : Message)]).length = msgs2.length + 1 := by simp
      rw [← hlen, List.take_left]
    · intro r hr hne
      rw [hrun]
      show ((recordReply (applyBotActions (addMessage ⟨msgs2, [], acc2, idx2⟩
          .user text) (ad.handle text).1) (ad.handle text).2).messages.getLast?).map
          (fun mm => (mm.role, mm.body)) = some (.chatbot, r)
      rw [hr, recordReply_some _ r hne]
      simp [addMessage, List.getLast?_concat]

/-- Witness for C6: against the witness adapter, a user turn with the stale
message "stale" pending fails about it (identically for a second adapter
whose handler differs), and from the empty initial state the turn "Hi" is
recorded, Passed, and the reply "Hello there" is the final chatbot
message. -/
theorem user_turn_queue_protocol_witness :
    (runOne witnessAdapter { queue := ["stale"] } false (.user "Hi" false)).result
      = .user .failed none none (some "stale") ∧
    (runOne witnessAdapter { queue := ["stale"] } false (.user "Hi" false)).hasFailed
      = true ∧
    (runOne witnessAdapter {} false (.user "Hi" false)).result.status
      = some Status.passed ∧
    (runOne witnessAdapter {} false (.user "Hi" false)).state.messages.take 1
      = [{ role := .user, body := "Hi", index := 0 }] ∧
    ((runOne witnessAdapter {} false (.user "Hi" false)).state.messages.getLast?).map
        (fun mm => (mm.role, mm.body))
      = some (.chatbot, "Hello there") := by
  have h := user_turn_queue_protocol witnessAdapter
    { witnessAdapter with gen := fun _ => "other" }
    { queue := ["stale"] } "Hi" "stale" [] false rfl
  have h5 := h.2.2.2.2 {} rfl
  exact ⟨h.1, h.2.1, h5.1, h5.2.1, h5.2.2 "Hello there" rfl (by decide)⟩

end Credence
